import Mathlib

/-!
Verification development for the worldgen core: exact-arithmetic embedding of
the geometric primitives (`src/backend/src/geometry.rs`), the Bowyer-Watson
triangulation engine (`src/backend/src/delaunay.rs`) and the grid container
(`src/backend/src/grid.rs`).

Modelling conventions:
- `f32` coordinates are modelled as exact rationals (`ℚ`).  Every concrete
  input used in a theorem below is a small dyadic rational, exactly
  representable in `f32`, and every arithmetic step performed on it by the
  source is exact in `f32`, so the evaluated behaviour coincides with the
  rational model.
- The source computes Euclidean distances and radii with `sqrt`; the model
  stores squared distances and squared radii.  Since `sqrt` is strictly
  monotone on the nonnegative reals, every comparison (`=`, `≤`, `<`) of
  distances in the source is mirrored exactly by the same comparison of the
  squared quantities.
- Rational division is total with `x / 0 = 0`; everywhere the model divides,
  either the divisor is proved nonzero or the zero-divisor case is surfaced
  explicitly as an error (matching the source, where the division would
  produce a non-finite `f32` and the subsequent `Point2D::new` finiteness
  assertion aborts).
- A separate `FPoint` layer models `f32` overflow exactly where a claim is
  about the finiteness invariant itself.
-/

namespace Worldgen

/-- A point in the 2-dimensional XY plane (`Point2D` in `geometry.rs`).
The source guarantees both components finite at construction; the model uses
exact rationals. -/
structure Point2D where
  x : ℚ
  y : ℚ
deriving DecidableEq

/-- The origin point (`Point2D::origin`). -/
def Point2D.origin : Point2D := ⟨0, 0⟩

/-- Squared Euclidean distance between two points.  The source's
`Point2D::distance` is `sqrt` of this quantity.  This exact version is used
only where the quantities compared are computed exactly in `f32` (the
concrete circumcircle and containment evaluations below); the claims about
the behaviour of `distance` itself on arbitrary inputs use the
underflow-aware `f32distSq` model instead, because the source's `f32`
squaring can round a nonzero square to zero. -/
def Point2D.distSq (a b : Point2D) : ℚ := (a.x - b.x) ^ 2 + (a.y - b.y) ^ 2

/-- Componentwise addition (`impl Add for Point2D`, no re-validation). -/
def Point2D.add (a b : Point2D) : Point2D := ⟨a.x + b.x, a.y + b.y⟩

/-- Componentwise subtraction (`impl Sub for Point2D`, no re-validation). -/
def Point2D.sub (a b : Point2D) : Point2D := ⟨a.x - b.x, a.y - b.y⟩

/-- Scaling by a scalar (`impl Mul<f32> for Point2D`).  The source asserts the
scalar is a normal float; the only scalar used by the engine is `2.0`, which
is normal. -/
def Point2D.mulS (a : Point2D) (k : ℚ) : Point2D := ⟨a.x * k, a.y * k⟩

/-- The strict lexicographic order on points derived by Rust's
`#[derive(PartialOrd)]`: compare `x` first, then `y`.  On finite floats the
source's comparison agrees with the exact rational comparison. -/
def Point2D.lt (a b : Point2D) : Bool :=
  decide (a.x < b.x) || (decide (a.x = b.x) && decide (a.y < b.y))

/-- A segment connecting two points (`Segment` in `geometry.rs`).  The start
is always the smaller endpoint under `Point2D.lt`; the source calls the second
field `end`, a Lean keyword, so the model names it `stop`. -/
structure Segment where
  start : Point2D
  stop : Point2D
deriving DecidableEq

/-- `Segment::new`: canonicalize the endpoint order (`if b < a` swap). -/
def Segment.new (a b : Point2D) : Segment :=
  if Point2D.lt b a then ⟨b, a⟩ else ⟨a, b⟩

/-- The endpoints of a segment, in canonical order (`Segment::endpoints`). -/
def Segment.endpoints (s : Segment) : Point2D × Point2D := (s.start, s.stop)

/-- A triangle with vertices stored in the order given (`Triangle` in
`geometry.rs`; `Triangle::new` performs no canonicalization, and the derived
equality is order-sensitive). -/
structure Triangle where
  a : Point2D
  b : Point2D
  c : Point2D
deriving DecidableEq

/-- The three edges of a triangle, as canonical segments (`Triangle::edges`). -/
def Triangle.edges (t : Triangle) : List Segment :=
  [Segment.new t.a t.b, Segment.new t.b t.c, Segment.new t.c t.a]

/-- The vertices of a triangle as a list (`Triangle::points`). -/
def Triangle.verts (t : Triangle) : List Point2D := [t.a, t.b, t.c]

/-- Barycentric point-in-triangle test (`Triangle::contains`).  The boundary
policy follows the source exactly: `u >= 0 && v >= 0 && u + v < 1`.  Rational
division is total with `x / 0 = 0`; the divisor `dot00 * dot11 - dot01 ^ 2`
is nonzero for every non-degenerate triangle, and every triangle this model
applies the test to is proved non-degenerate where it matters. -/
def Triangle.contains (t : Triangle) (p : Point2D) : Bool :=
  let dot : Point2D → Point2D → ℚ := fun p1 p2 => p1.x * p2.x + p1.y * p2.y
  let v0 := t.c.sub t.a
  let v1 := t.b.sub t.a
  let v2 := p.sub t.a
  let dot00 := dot v0 v0
  let dot01 := dot v0 v1
  let dot02 := dot v0 v2
  let dot11 := dot v1 v1
  let dot12 := dot v1 v2
  let d := 1 / (dot00 * dot11 - dot01 * dot01)
  let u := (dot11 * dot02 - dot01 * dot12) * d
  let v := (dot00 * dot12 - dot01 * dot02) * d
  decide (0 ≤ u) && decide (0 ≤ v) && decide (u + v < 1)

/-- Error conditions surfaced by the geometry layer.  The source has no typed
error values: `invalidCoordinate` models the `assert!(x.is_finite())` panic in
`Point2D::new`, and `degenerateTriangle` is the error kind the specification
prescribes for collinear triangles (no code path in the source produces it). -/
inductive GeomError
  | invalidCoordinate
  | degenerateTriangle
deriving DecidableEq

/-- A circle (`Circle` in `geometry.rs`).  The source stores the radius; the
model stores the squared radius (see the header comment). -/
structure Circle where
  center : Point2D
  radiusSq : ℚ
deriving DecidableEq

/-- Inclusive containment test (`Circle::contains`):
`distance(center, point) <= radius`, expressed on squared quantities. -/
def Circle.containsPt (c : Circle) (p : Point2D) : Bool :=
  decide (Point2D.distSq c.center p ≤ c.radiusSq)

/-- The circumcircle computation of `Triangle::circumcircle`, transcribed
term by term: translate `b` and `c` relative to `a`, form the determinant
`d = 2 * (b.x * c.y - c.x * b.y)` and the numerator `k`, divide, translate
back, and take the distance to vertex `a` as the radius.  When `d = 0` the
source's divisions produce non-finite floats and the `Point2D::new`
finiteness assertion aborts; the model surfaces that path as
`GeomError.invalidCoordinate`.  The branch condition is on the determinant
as computed: it coincides with the source exactly when the coordinate
differences and products are exact in `f32` - true at every concrete input
this development evaluates - whereas for general `f32` inputs rounding can
make the source compute a nonzero `d` even for exactly collinear vertices
(and then return a finite circle without failing). -/
def Triangle.circumcircle (t : Triangle) : Except GeomError Circle :=
  let b := t.b.sub t.a
  let c := t.c.sub t.a
  let d := 2 * ((b.x * c.y) - (c.x * b.y))
  let k := c.y * (b.x ^ 2 + b.y ^ 2) - b.y * (c.x ^ 2 + c.y ^ 2)
  if d = 0 then Except.error GeomError.invalidCoordinate
  else
    let x := k / d
    let y := (-k) / d
    let center := (Point2D.mk x y).add t.a
    let radiusSq := Point2D.distSq center t.a
    Except.ok ⟨center, radiusSq⟩

/-- Modelled `f32` squaring for the distance claims, exact as far as the
zero/nonzero verdict goes: under round-to-nearest-even, an exact square at
or below `2 ^ (-150)` (half the smallest positive subnormal `2 ^ (-149)`;
the tie at exactly `2 ^ (-150)` goes to the even candidate `0`) rounds to
zero, and any larger square rounds to a nonzero value (possibly infinity).
In the nonzero case the model keeps the exact square; the rounding of an
in-range square changes its value but never its sign or zeroness. -/
def f32sq (x : ℚ) : ℚ := if x ^ 2 ≤ 1 / 2 ^ 150 then 0 else x ^ 2

/-- The squared distance as `Point2D::distance` computes it, with the `f32`
underflow of each squaring modelled by `f32sq`.  The coordinate differences
are taken exactly (`f32` subtraction is exact at every input evaluated
below, and rounds symmetrically under operand exchange in general, so the
symmetry statement is faithful).  The final sum is kept exact: a rounded
sum of two nonnegative `f32` values is zero exactly when both addends are
zero, so the zero verdict is preserved; and the source's `sqrt` of this sum
is zero exactly when the sum is zero, so `distance` is zero in the source
exactly when `f32distSq` is zero in the model. -/
def f32distSq (a b : Point2D) : ℚ := f32sq (a.x - b.x) + f32sq (a.y - b.y)

/-- Whether the circumcircle of `t` contains `p`.  In the source this is
`triangle.circumcircle()` followed by `circum.contains(point)`; the error
branch is unreachable wherever this function is actually applied, because the
caller (`delaunay`) is modelled to abort when any circumcircle is degenerate
(the source would panic there). -/
def circumContains (t : Triangle) (p : Point2D) : Bool :=
  match t.circumcircle with
  | Except.ok circ => circ.containsPt p
  | Except.error _ => false

/-- The cavity-boundary polygon of the invalidated set (`delaunay.rs` lines
23-38): for each invalidated triangle, keep each of its edges unless some
other invalidated triangle has an equal edge (the labelled `continue 'a`);
the kept edges of all invalidated triangles are collected.  The source pushes
them into a `Vec` that is only ever consumed as a generator of set
insertions, so the model collects them as a `Finset`. -/
def cavityPolygon (inv : Finset Triangle) : Finset Segment :=
  inv.biUnion fun t =>
    (t.edges.filter fun e => decide (∀ t2 ∈ inv, t2 ≠ t → e ∉ t2.edges)).toFinset

/-- One iteration of the insertion loop of `delaunay` (lines 13-49): compute
the invalidated set (the source calls `circumcircle()` on every triangle of
the current triangulation, so a degenerate triangle anywhere aborts the call,
modelled as `none`), collect the cavity boundary, remove the invalidated
triangles and insert one new triangle per boundary edge. -/
def insertPoint (tris : Finset Triangle) (p : Point2D) : Option (Finset Triangle) :=
  if ∀ t ∈ tris, t.circumcircle.isOk then
    let invalidated := tris.filter fun t => circumContains t p
    let polygon := cavityPolygon invalidated
    some ((tris \ invalidated) ∪
      polygon.image fun e => Triangle.mk p e.start e.stop)
  else none

/-- The unbounded doubling loop inside `super_triangle` (lines 74-83), made
total with explicit fuel: `none` means the source loops beyond the given
number of iterations. -/
def growLoop : ℕ → Point2D → Point2D → Point2D → Point2D →
    Option (Point2D × Point2D × Point2D)
  | 0, _, _, _, _ => none
  | fuel + 1, top, left, right, p =>
    if (Triangle.mk top left right).contains p then some (top, left, right)
    else growLoop fuel (top.mulS 2) (left.mulS 2) (right.mulS 2) p

/-- The outer loop of `super_triangle` (lines 73-84): run the doubling loop
for each input point in turn, threading the grown vertices. -/
def superLoop (fuel : ℕ) : List Point2D → Point2D → Point2D → Point2D → Option Triangle
  | [], top, left, right => some (Triangle.mk top left right)
  | p :: ps, top, left, right =>
    match growLoop fuel top left right p with
    | none => none
    | some (t, l, r) => superLoop fuel ps t l r

/-- `super_triangle` (lines 67-87): start from the fixed unit-area triangle
`top = (0, 0.5)`, `left = (-1, -0.5)`, `right = (1, 0.5)` and grow it until
it contains every input point.  `none` means the source diverges within the
given fuel per point. -/
def superTriangleFuel (fuel : ℕ) (points : List Point2D) : Option Triangle :=
  superLoop fuel points ⟨0, 1/2⟩ ⟨-1, -1/2⟩ ⟨1, 1/2⟩

/-- The final cleanup of `delaunay` (lines 51-61): a triangle is removed when
the positional `zip` of the super-triangle's edges with its own edges has an
equal pair; the output keeps exactly the triangles with no positional match. -/
def cleanup (superTri : Triangle) (tris : Finset Triangle) : Finset Triangle :=
  tris.filter fun t =>
    ¬ (superTri.edges.zip t.edges).any fun q => decide (q.1 = q.2)

/-- `delaunay` (lines 8-64), made total with fuel for the super-triangle
growth loop: seed the triangulation with the super-triangle, insert the
points in sequence, then run the cleanup.  `none` models divergence of the
growth loop or a panic on a degenerate circumcircle. -/
def delaunayFuel (fuel : ℕ) (points : List Point2D) : Option (Finset Triangle) :=
  match superTriangleFuel fuel points with
  | none => none
  | some superTri =>
    match points.foldlM insertPoint ({superTri} : Finset Triangle) with
    | none => none
    | some tris => some (cleanup superTri tris)

/-- Modelled from the spec: an edge is a cavity-boundary edge exactly when it
belongs to precisely one triangle of the invalidated set (spec section 4.5
step 3b).  This is the specification-side characterization that the
code-side `cavityPolygon` is compared against. -/
def specCavityBoundary (inv : Finset Triangle) (e : Segment) : Prop :=
  (inv.filter fun t => e ∈ t.edges).card = 1

/-- A rectangular grid of objects (`Grid` in `grid.rs`), backed by row-major
storage; the constructors allocate `width * height` elements. -/
structure Grid (T : Type) where
  width : ℕ
  height : ℕ
  data : List T

/-- `Grid::with_value`: a grid whose `width * height` entries all hold `val`. -/
def Grid.withValue {T : Type} (width height : ℕ) (val : T) : Grid T :=
  ⟨width, height, List.replicate (width * height) val⟩

/-- `Grid::get_unchecked`: reads `self.data[y * self.height + x]` - note the
source multiplies by `height`, not `width`.  The raw read is undefined
behaviour when the index is out of bounds; the model returns `none` there. -/
def Grid.getUnchecked {T : Type} (g : Grid T) (x y : ℕ) : Option T :=
  g.data.get? (y * g.height + x)

/-- `Grid::get`: bounds-check `x < width` and `y < height`, then defer to the
unchecked read. -/
def Grid.get {T : Type} (g : Grid T) (x y : ℕ) : Option T :=
  if x ≥ g.width ∨ y ≥ g.height then none
  else g.getUnchecked x y

/-- The largest finite `f32` magnitude: `(2 - 2 ^ (-23)) * 2 ^ 127`. -/
def f32MaxVal : ℚ := 2 ^ 128 - 2 ^ 104

/-- The `f32` overflow threshold for round-to-nearest-even: an operation
whose exact result has magnitude at least `(2 - 2 ^ (-24)) * 2 ^ 127` rounds
to infinity. -/
def f32OverflowBound : ℚ := 2 ^ 128 - 2 ^ 103

/-- An `f32` value for the finiteness-invariant claims: `some q` is a finite
value with exact magnitude `q`, `none` is non-finite (an infinity or NaN). -/
def F32Val : Type := Option ℚ

instance : DecidableEq F32Val := by
  unfold F32Val; infer_instance

/-- Exact model of `f32` addition restricted to what the finiteness claims
need: a finite sum below the overflow threshold stays finite (the model keeps
the exact value; rounding of in-range sums never changes finiteness), a sum
at or above the threshold rounds to infinity, and any non-finite operand
yields a non-finite result. -/
def f32add : F32Val → F32Val → F32Val
  | some x, some y => if |x + y| < f32OverflowBound then some (x + y) else none
  | _, _ => none

/-- A point whose components carry `f32` finiteness information, for the
claims about the finiteness invariant of `Point2D` arithmetic. -/
structure FPoint where
  x : F32Val
  y : F32Val
deriving DecidableEq

/-- `impl Add for Point2D`: componentwise addition with no assertion and no
re-validation of the result. -/
def FPoint.add (p q : FPoint) : FPoint := ⟨f32add p.x q.x, f32add p.y q.y⟩

/-- The finiteness invariant of `Point2D`: both components finite. -/
def FPoint.finite (p : FPoint) : Prop := p.x.isSome = true ∧ p.y.isSome = true

deriving instance DecidableEq for Except

/-- Two points with `Point2D.lt` false both ways are equal: the lexicographic
comparison is a total order on (finite) coordinates. -/
theorem Point2D.lt_false_antisymm {a b : Point2D}
    (h1 : Point2D.lt a b = false) (h2 : Point2D.lt b a = false) : a = b := by
  unfold Point2D.lt at h1 h2
  simp only [Bool.or_eq_false_iff, Bool.and_eq_false_iff,
    decide_eq_false_iff_not, not_lt] at h1 h2
  have hx : a.x = b.x := le_antisymm h2.1 h1.1
  rcases h1.2 with h | h
  · exact absurd hx h
  rcases h2.2 with h2' | h2'
  · exact absurd hx.symm h2'
  have hy : a.y = b.y := le_antisymm h2' h
  cases a
  cases b
  simp_all

/-- `Point2D.lt` is asymmetric. -/
theorem Point2D.lt_asymmB {a b : Point2D}
    (h1 : Point2D.lt a b = true) (h2 : Point2D.lt b a = true) : False := by
  unfold Point2D.lt at h1 h2
  simp only [Bool.or_eq_true, Bool.and_eq_true, decide_eq_true_eq] at h1 h2
  rcases h1 with h1 | ⟨h1e, h1y⟩ <;> rcases h2 with h2 | ⟨h2e, h2y⟩ <;> linarith

/-- C8: for all points `a` and `b`, `Segment::new(a, b)` equals
`Segment::new(b, a)`: construction canonicalizes the endpoint order, so the
same undirected edge built from either vertex order compares equal.  Proved
for all pairs, which covers in particular the claim's case `a ≠ b`. -/
theorem segment_new_symm (a b : Point2D) : Segment.new a b = Segment.new b a := by
  unfold Segment.new
  by_cases h1 : Point2D.lt b a <;> by_cases h2 : Point2D.lt a b
  · exact (Point2D.lt_asymmB h2 h1).elim
  · simp [h1, h2]
  · simp [h1, h2]
  · have h1' : Point2D.lt b a = false := Bool.eq_false_iff.mpr h1
    have h2' : Point2D.lt a b = false := Bool.eq_false_iff.mpr h2
    have hab : a = b := Point2D.lt_false_antisymm h2' h1'
    simp [h1, h2, hab]

/-- C9 counterexample: `distance` is not zero only on equal points.  The
points `(0, 0)` and `(2 ^ (-80), 0)` are distinct, valid, finite (indeed
normal) `f32` points, but the source computes `(0 - 2 ^ (-80)).powi(2)` in
`f32`: the exact square `2 ^ (-160)` is far below half the smallest
subnormal and rounds to zero, so `distance` returns `0.0` for two distinct
points, refuting the zero-iff-equal half of the claim. -/
theorem distance_zero_for_distinct_points :
    f32distSq ⟨0, 0⟩ ⟨1 / 2 ^ 80, 0⟩ = 0 ∧
    Point2D.mk 0 0 ≠ ⟨1 / 2 ^ 80, 0⟩ := by
  constructor
  · unfold f32distSq f32sq
    norm_num
  · intro h
    rw [Point2D.mk.injEq] at h
    have := h.1
    norm_num at this

/-- C9 amended: `distance` is symmetric, and `distance(a, a) = 0` (so equal
points are at distance zero); but the converse fails - a zero distance does
not imply equal points, because the `f32` squaring of a small nonzero
coordinate difference underflows to zero. -/
theorem f32distance_symm_and_self_zero (a b : Point2D) :
    f32distSq a b = f32distSq b a ∧ f32distSq a a = 0 := by
  constructor
  · unfold f32distSq f32sq
    have hx : (a.x - b.x) ^ 2 = (b.x - a.x) ^ 2 := by ring
    have hy : (a.y - b.y) ^ 2 = (b.y - a.y) ^ 2 := by ring
    rw [hx, hy]
  · unfold f32distSq f32sq
    norm_num

/-- C1: evaluation of `Triangle::circumcircle` at the right triangle
`a = (0,0)`, `b = (2,0)`, `c = (0,2)`.  The true circumcenter is `(1, 1)`,
but the source computes the center `(1, -1)` (its `y = -k/d` reuses the
`x`-numerator with flipped sign instead of the correct second determinant).
The squared distance from the returned center to vertex `c` is `10`, while
the returned squared radius is `2`: the returned circle does not pass
through all three vertices, so the distance from the center to `c` differs
from the radius. -/
theorem circumcircle_center_not_equidistant :
    (Triangle.mk ⟨0, 0⟩ ⟨2, 0⟩ ⟨0, 2⟩).circumcircle =
      Except.ok ⟨⟨1, -1⟩, 2⟩ ∧
    Point2D.distSq ⟨1, -1⟩ ⟨0, 0⟩ = 2 ∧
    Point2D.distSq ⟨1, -1⟩ ⟨0, 2⟩ = 10 ∧
    Point2D.distSq ⟨1, -1⟩ ⟨0, 2⟩ ≠ (Circle.mk ⟨1, -1⟩ 2).radiusSq := by
  refine ⟨by with_unfolding_all decide, ?_, ?_, ?_⟩ <;>
    norm_num [Point2D.distSq]

/-- C4 counterexample: the empty input has fewer than 3 points, yet
`delaunay` returns a triangle set (the empty set) instead of failing with a
`DegenerateInput` error - the source defines no such error. -/
theorem delaunay_empty_returns_set :
    delaunayFuel 1 [] = some (∅ : Finset Triangle) := by
  with_unfolding_all decide

/-- C4 amended: `delaunay` performs no input validation at all.  With fewer
than 3 distinct non-collinear points it still returns a triangle set: the
empty input yields the empty set, and a single-point input also returns
normally. -/
theorem delaunay_no_input_validation :
    (delaunayFuel 1 []).isSome = true ∧
    (delaunayFuel 5 [⟨0, 1/8⟩]).isSome = true := by
  constructor <;> with_unfolding_all decide

/-- C10: `Grid::get_unchecked` indexes `data[y * height + x]` instead of the
row-major `data[y * width + x]`.  On a 3-wide, 2-high grid with data
`[10, .., 15]`, `get(0, 1)` passes the bounds check and returns the element
at index `1 * 2 + 0 = 2`, namely `12`, while row-major position
`1 * 3 + 0 = 3` holds `13`.  On a 2-wide, 3-high grid, `get(1, 2)` passes
the bounds check but reads index `2 * 3 + 1 = 7`, past the backing storage
of length `width * height = 6` (undefined behaviour in the source, `none` in
the model). -/
theorem grid_get_wrong_index :
    (Grid.mk 3 2 [10, 11, 12, 13, 14, 15]).get 0 1 = some 12 ∧
    ([10, 11, 12, 13, 14, 15] : List ℕ).get? (1 * 3 + 0) = some 13 ∧
    (Grid.withValue 2 3 (0 : ℕ)).get 1 2 = none ∧
    (Grid.withValue 2 3 (0 : ℕ)).data.length = 6 := by
  refine ⟨by decide, by decide, ?_, by decide⟩
  with_unfolding_all decide

/-- C7 counterexample: on the collinear triangle `(0,0), (1,0), (2,0)` the
source's `circumcircle` does fail, but through the finiteness assertion in
`Point2D::new` (the division by `d = 0` produces a non-finite coordinate),
not through any `DegenerateTriangle` error condition - the source defines no
such condition, so the claimed error kind is not what the code raises. -/
theorem circumcircle_collinear_wrong_error_kind :
    (Triangle.mk ⟨0, 0⟩ ⟨1, 0⟩ ⟨2, 0⟩).circumcircle =
      Except.error GeomError.invalidCoordinate ∧
    (Except.error GeomError.invalidCoordinate : Except GeomError Circle) ≠
      Except.error GeomError.degenerateTriangle := by
  refine ⟨by with_unfolding_all decide, by decide⟩

/-- C7 amended: whenever the determinant that `circumcircle()` computes is
zero, the call fails - via the `Point2D::new` finiteness assertion
(`InvalidCoordinate`), not via an explicit `DegenerateTriangle` error - and
so never returns a circle with a non-finite center or radius, nor lets NaN
flow into later containment comparisons.  The hypothesis is the quantity
the program itself computes: with exact `f32` arithmetic (all small-integer
or dyadic inputs, such as the witness) it is zero precisely for collinear
vertices, but no statement over all collinear triangles is made, because
`f32` rounding of the coordinate differences can yield a nonzero
determinant for exactly collinear vertices, in which case the source does
not fail at all. -/
theorem circumcircle_zero_det_aborts (t : Triangle)
    (h : 2 * (((t.b.sub t.a).x * (t.c.sub t.a).y) -
      ((t.c.sub t.a).x * (t.b.sub t.a).y)) = 0) :
    t.circumcircle = Except.error GeomError.invalidCoordinate := by
  unfold Triangle.circumcircle
  simp only [h, if_pos]

/-- Witness for the C7 amended theorem at the collinear triangle
`(0,0), (1,1), (2,2)`, whose determinant is computed exactly in `f32`. -/
theorem circumcircle_zero_det_aborts_witness :
    2 * ((((Triangle.mk ⟨0, 0⟩ ⟨1, 1⟩ ⟨2, 2⟩).b.sub
        (Triangle.mk ⟨0, 0⟩ ⟨1, 1⟩ ⟨2, 2⟩).a).x *
      ((Triangle.mk ⟨0, 0⟩ ⟨1, 1⟩ ⟨2, 2⟩).c.sub
        (Triangle.mk ⟨0, 0⟩ ⟨1, 1⟩ ⟨2, 2⟩).a).y) -
      (((Triangle.mk ⟨0, 0⟩ ⟨1, 1⟩ ⟨2, 2⟩).c.sub
        (Triangle.mk ⟨0, 0⟩ ⟨1, 1⟩ ⟨2, 2⟩).a).x *
      ((Triangle.mk ⟨0, 0⟩ ⟨1, 1⟩ ⟨2, 2⟩).b.sub
        (Triangle.mk ⟨0, 0⟩ ⟨1, 1⟩ ⟨2, 2⟩).a).y)) = 0 ∧
    (Triangle.mk ⟨0, 0⟩ ⟨1, 1⟩ ⟨2, 2⟩).circumcircle =
      Except.error GeomError.invalidCoordinate := by
  constructor
  · norm_num [Point2D.sub]
  · exact circumcircle_zero_det_aborts _ (by norm_num [Point2D.sub])

/-- C6: the input point `(2^127, 0)` satisfies the finiteness invariant (its
magnitude is below the largest finite `f32`), yet `impl Add for Point2D`
silently returns a point whose `x` component is non-finite: the exact sum
`2^128` is at or above the `f32` overflow threshold, so the addition yields
infinity, and the source performs no assertion and no re-validation of the
result (contradicting the documented guarantee that both components of a
`Point2D` are finite). -/
theorem add_overflow_breaks_finiteness :
    FPoint.finite ⟨some ((2 : ℚ) ^ 127), some 0⟩ ∧
    |(2 : ℚ) ^ 127| ≤ f32MaxVal ∧
    FPoint.add ⟨some ((2 : ℚ) ^ 127), some 0⟩ ⟨some ((2 : ℚ) ^ 127), some 0⟩ =
      ⟨none, some 0⟩ := by
  refine ⟨⟨rfl, rfl⟩, ?_, ?_⟩
  · unfold f32MaxVal
    rw [abs_of_nonneg (by positivity)]
    norm_num
  · simp only [FPoint.add, f32add]
    rw [if_neg, if_pos]
    · norm_num
    · unfold f32OverflowBound
      norm_num
    · unfold f32OverflowBound
      rw [abs_of_nonneg (by positivity)]
      norm_num

/-- The barycentric containment test rejects the origin on the scaled
super-triangle for every nonzero scale: the origin lies on the line through
`left` and `right` (that line passes through the origin and is preserved by
the doubling, which scales about the origin), and that edge is the exclusive
one in the test, so `u + v = 1` fails `u + v < 1`. -/
theorem scaled_tri_not_contains_origin (s : ℚ) (hs : s ≠ 0) :
    (Triangle.mk ⟨0, s/2⟩ ⟨-s, -s/2⟩ ⟨s, s/2⟩).contains ⟨0, 0⟩ = false := by
  have hs4 : (s : ℚ) ^ 4 ≠ 0 := pow_ne_zero 4 hs
  simp only [Triangle.contains, Point2D.sub]
  norm_num
  intro h
  have hD : s * s * (s * s + (-s / 2 - s / 2) * (-s / 2 - s / 2)) - s * s * (s * s)
      = s ^ 4 := by ring
  rw [hD]
  have hE : s * s * ((-s / 2 - s / 2) * (s / 2)) * ((s : ℚ) ^ 4)⁻¹ = -(1/2 : ℚ) := by
    field_simp
    ring
  rw [hE]
  norm_num

/-- The doubling loop started from the scaled super-triangle never exits when
the query point is the origin, whatever the fuel. -/
theorem growLoop_scaled_origin_none (fuel : ℕ) : ∀ (s : ℚ), s ≠ 0 →
    growLoop fuel ⟨0, s/2⟩ ⟨-s, -s/2⟩ ⟨s, s/2⟩ ⟨0, 0⟩ = none := by
  induction fuel with
  | zero => intro s hs; rfl
  | succ n ih =>
    intro s hs
    unfold growLoop
    rw [scaled_tri_not_contains_origin s hs]
    simp only [Bool.false_eq_true, if_false]
    have e1 : (Point2D.mk 0 (s/2)).mulS 2 = ⟨0, (2*s)/2⟩ := by
      unfold Point2D.mulS
      simp only [Point2D.mk.injEq]
      constructor <;> ring
    have e2 : (Point2D.mk (-s) (-s/2)).mulS 2 = ⟨-(2*s), -(2*s)/2⟩ := by
      unfold Point2D.mulS
      simp only [Point2D.mk.injEq]
      constructor <;> ring
    have e3 : (Point2D.mk s (s/2)).mulS 2 = ⟨2*s, (2*s)/2⟩ := by
      unfold Point2D.mulS
      simp only [Point2D.mk.injEq]
      constructor <;> ring
    rw [e1, e2, e3]
    exact ih (2*s) (by simpa using hs)

/-- C3: `super_triangle` does not terminate on the single-point input
`[(0, 0)]`.  For every fuel bound, the doubling loop fails: the origin lies
on the exclusive edge of every doubled triangle, so the containment test
never succeeds and the source loops forever (in actual `f32` arithmetic the
coordinates eventually overflow to infinity and the test keeps failing). -/
theorem super_triangle_origin_diverges (fuel : ℕ) :
    superTriangleFuel fuel [Point2D.origin] = none := by
  unfold superTriangleFuel superLoop Point2D.origin
  rw [growLoop_scaled_origin_none fuel 1 one_ne_zero]

/-- C5: the cavity boundary collected by the nested loops of `delaunay` is
exactly the set of edges that belong to precisely one triangle of the
invalidated set; an edge occurring in two invalidated triangles is
discarded.  `specCavityBoundary` transcribes the specification side. -/
theorem cavityPolygon_exactly_once (inv : Finset Triangle) (e : Segment) :
    e ∈ cavityPolygon inv ↔ specCavityBoundary inv e := by
  unfold cavityPolygon specCavityBoundary
  rw [Finset.mem_biUnion]
  constructor
  · rintro ⟨t, ht, he⟩
    rw [List.mem_toFinset, List.mem_filter, decide_eq_true_eq] at he
    obtain ⟨heE, hcond⟩ := he
    rw [Finset.card_eq_one]
    refine ⟨t, ?_⟩
    ext t2
    simp only [Finset.mem_filter, Finset.mem_singleton]
    constructor
    · rintro ⟨ht2, he2⟩
      by_contra hne
      exact hcond t2 ht2 hne he2
    · rintro rfl
      exact ⟨ht, heE⟩
  · intro h
    rw [Finset.card_eq_one] at h
    obtain ⟨t, hfil⟩ := h
    have htmem : t ∈ Finset.filter (fun t2 => e ∈ t2.edges) inv := by
      rw [hfil]
      exact Finset.mem_singleton_self t
    rw [Finset.mem_filter] at htmem
    refine ⟨t, htmem.1, ?_⟩
    rw [List.mem_toFinset, List.mem_filter, decide_eq_true_eq]
    refine ⟨htmem.2, ?_⟩
    intro t2 ht2 hne he2
    have ht2f : t2 ∈ Finset.filter (fun t3 => e ∈ t3.edges) inv :=
      Finset.mem_filter.mpr ⟨ht2, he2⟩
    rw [hfil, Finset.mem_singleton] at ht2f
    exact hne ht2f

/-- C2 counterexample: on the single-point input `[(0, 1/4)]` the
super-triangle is the base triangle `(0,1/2), (-1,-1/2), (1,1/2)`, and the
returned set contains the triangle `((0,1/4), (-1,-1/2), (0,1/2))`, which
has the super-triangle vertex `(0,1/2)` among its vertices and even shares
the whole super-triangle edge from `(-1,-1/2)` to `(0,1/2)` - the positional
`zip` comparison of the cleanup fails to remove it because that edge sits at
a different index in the two edge lists. -/
theorem delaunay_output_retains_super_vertex :
    superTriangleFuel 5 [⟨0, 1/4⟩] =
      some (Triangle.mk ⟨0, 1/2⟩ ⟨-1, -1/2⟩ ⟨1, 1/2⟩) ∧
    delaunayFuel 5 [⟨0, 1/4⟩] =
      some ({Triangle.mk ⟨0, 1/4⟩ ⟨-1, -1/2⟩ ⟨0, 1/2⟩,
             Triangle.mk ⟨0, 1/4⟩ ⟨0, 1/2⟩ ⟨1, 1/2⟩} : Finset Triangle) ∧
    (⟨0, 1/2⟩ : Point2D) ∈ (Triangle.mk ⟨0, 1/2⟩ ⟨-1, -1/2⟩ ⟨1, 1/2⟩).verts ∧
    (⟨0, 1/2⟩ : Point2D) ∈ (Triangle.mk ⟨0, 1/4⟩ ⟨-1, -1/2⟩ ⟨0, 1/2⟩).verts ∧
    Segment.new ⟨-1, -1/2⟩ ⟨0, 1/2⟩ ∈
      (Triangle.mk ⟨0, 1/2⟩ ⟨-1, -1/2⟩ ⟨1, 1/2⟩).edges ∧
    Segment.new ⟨-1, -1/2⟩ ⟨0, 1/2⟩ ∈
      (Triangle.mk ⟨0, 1/4⟩ ⟨-1, -1/2⟩ ⟨0, 1/2⟩).edges := by
  with_unfolding_all decide

/-- C2 amended: the cleanup is positional, not a full cross-product - a
triangle survives exactly when it is in the final triangulation and no edge
of it equals the positionally corresponding super-triangle edge under the
`zip` pairing.  Triangles sharing a super-triangle edge at a different
position, or merely a super-triangle vertex, are kept, so the output can
retain synthetic super-triangle vertices. -/
theorem cleanup_positional_only (superTri : Triangle) (tris : Finset Triangle)
    (t : Triangle) :
    t ∈ cleanup superTri tris ↔
      t ∈ tris ∧ ∀ p ∈ superTri.edges.zip t.edges, p.1 ≠ p.2 := by
  unfold cleanup
  rw [Finset.mem_filter]
  constructor
  · rintro ⟨h1, h2⟩
    refine ⟨h1, ?_⟩
    intro p hp hEq
    refine h2 ?_
    rw [List.any_eq_true]
    exact ⟨p, hp, by simp [hEq]⟩
  · rintro ⟨h1, h2⟩
    refine ⟨h1, ?_⟩
    intro hAny
    rw [List.any_eq_true] at hAny
    obtain ⟨p, hp, hq⟩ := hAny
    rw [decide_eq_true_eq] at hq
    exact h2 p hp hq

end Worldgen
